import Mathlib

/-!
Verification of the sports-video scraper (`scraper.py`).

This file shallowly embeds the pure core of the scraper — the identity
service (`gen_id`), the date normalizer (`parse_rel` / `parse_abs` /
`parse_dt`), the inline link resolver (`inline_single_video_urls`), the
merge/dedup engine (`ensure_source_fields` / `merge`), and the
`SoccerFull.run` candidate loop — and proves the testable properties of
its specification against these definitions.

Modelling conventions:
* Python strings are Lean `String`s; scanners work on `List Char`.
* Python `dict`s (insertion-ordered) are association lists `List (k × v)`
  with in-place-update `dset` and `setdefault` semantics `dsetdefault`.
* Machine integers never occur; MD5 is computed over `Nat` with explicit
  reduction mod 2^32.
* Network fetches and HTML parsing done by `requests`/`BeautifulSoup` are
  external collaborators: adapter loops take the fetched/extracted data as
  explicit inputs, and all control flow after those inputs is translated
  from the source.
-/

set_option maxRecDepth 4096

namespace Scraper

/-! ### Python string primitives -/

/-- The whitespace characters stripped/collapsed by Python's `str.strip` and
`\s` for the ASCII inputs handled here. -/
def pyIsSpace (c : Char) : Bool :=
  c = ' ' || c = '\t' || c = '\n' || c = '\r' || c = '\x0b' || c = '\x0c'

def asciiLowerChar (c : Char) : Char :=
  if 'A' ≤ c ∧ c ≤ 'Z' then Char.ofNat (c.toNat + 32) else c

/-- `str.lower()` for the ASCII range. -/
def asciiLower (s : String) : String :=
  ⟨s.data.map asciiLowerChar⟩

/-- `str.strip()` on a character list: drop whitespace from both ends. -/
def stripL (l : List Char) : List Char :=
  ((l.dropWhile pyIsSpace).reverse.dropWhile pyIsSpace).reverse

/-- `str.strip()`. -/
def pyStrip (s : String) : String := ⟨stripL s.data⟩

/-- Collapse every maximal run of spaces to a single space (the input has
already had each whitespace mapped to `' '`). -/
def dedupSpace : List Char → List Char
  | [] => []
  | [c] => [c]
  | a :: b :: rest =>
    if a = ' ' ∧ b = ' ' then dedupSpace (b :: rest) else a :: dedupSpace (b :: rest)

/-- `clean(x) = re.sub(r"\s+", " ", x).strip()` (scraper.py line 62). -/
def clean (s : String) : String :=
  ⟨stripL (dedupSpace (s.data.map fun c => if pyIsSpace c then ' ' else c))⟩

def isPrefixL : List Char → List Char → Bool
  | [], _ => true
  | _ :: _, [] => false
  | a :: as, b :: bs => a = b && isPrefixL as bs

/-- Substring containment (`needle in hay` on Python strings). -/
def containsL (hay needle : List Char) : Bool :=
  match hay with
  | [] => isPrefixL needle []
  | _ :: t => isPrefixL needle hay || containsL t needle

def containsS (hay needle : String) : Bool :=
  containsL hay.data needle.data

/-! ### UTF-8 encoding (`str.encode("utf-8")`) -/

def utf8Char (n : Nat) : List Nat :=
  if n < 0x80 then [n]
  else if n < 0x800 then [0xC0 + n / 64, 0x80 + n % 64]
  else if n < 0x10000 then [0xE0 + n / 4096, 0x80 + n / 64 % 64, 0x80 + n % 64]
  else [0xF0 + n / 262144, 0x80 + n / 4096 % 64, 0x80 + n / 64 % 64, 0x80 + n % 64]

def utf8 (s : String) : List Nat :=
  s.data.flatMap fun c => utf8Char c.toNat

/-! ### MD5 (the hash behind `hashlib.md5(...).hexdigest()`)

Implemented over `Nat`, every word kept below 2^32 by explicit `% 2^32`.
Bitwise operations are written as fuelled binary recursions so all proofs
reduce through plain `Nat` division and multiplication. -/

def bitZip (f : Nat → Nat → Nat) : Nat → Nat → Nat → Nat
  | 0, _, _ => 0
  | fuel + 1, x, y => f (x % 2) (y % 2) + 2 * bitZip f fuel (x / 2) (y / 2)

def and32 (x y : Nat) : Nat := bitZip (fun a b => a * b) 32 x y

def or32 (x y : Nat) : Nat := bitZip (fun a b => a + b - a * b) 32 x y

def xor32 (x y : Nat) : Nat := bitZip (fun a b => (a + b) % 2) 32 x y

/-- Bitwise complement on 32 bits; arguments are always `< 2^32` here. -/
def not32 (x : Nat) : Nat := 4294967295 - x

/-- Rotate a 32-bit word left by `s` bits. -/
def rotl32 (x s : Nat) : Nat := (x * 2 ^ s) % 4294967296 + x / 2 ^ (32 - s)

/-- Per-round shift amounts of MD5. -/
def md5S : List Nat :=
  [7, 12, 17, 22, 7, 12, 17, 22, 7, 12, 17, 22, 7, 12, 17, 22,
   5, 9, 14, 20, 5, 9, 14, 20, 5, 9, 14, 20, 5, 9, 14, 20,
   4, 11, 16, 23, 4, 11, 16, 23, 4, 11, 16, 23, 4, 11, 16, 23,
   6, 10, 15, 21, 6, 10, 15, 21, 6, 10, 15, 21, 6, 10, 15, 21]

/-- The sine-derived additive constants of MD5. -/
def md5K : List Nat :=
  [0xd76aa478, 0xe8c7b756, 0x242070db, 0xc1bdceee,
   0xf57c0faf, 0x4787c62a, 0xa8304613, 0xfd469501,
   0x698098d8, 0x8b44f7af, 0xffff5bb1, 0x895cd7be,
   0x6b901122, 0xfd987193, 0xa679438e, 0x49b40821,
   0xf61e2562, 0xc040b340, 0x265e5a51, 0xe9b6c7aa,
   0xd62f105d, 0x02441453, 0xd8a1e681, 0xe7d3fbc8,
   0x21e1cde6, 0xc33707d6, 0xf4d50d87, 0x455a14ed,
   0xa9e3e905, 0xfcefa3f8, 0x676f02d9, 0x8d2a4c8a,
   0xfffa3942, 0x8771f681, 0x6d9d6122, 0xfde5380c,
   0xa4beea44, 0x4bdecfa9, 0xf6bb4b60, 0xbebfbc70,
   0x289b7ec6, 0xeaa127fa, 0xd4ef3085, 0x04881d05,
   0xd9d4d039, 0xe6db99e5, 0x1fa27cf8, 0xc4ac5665,
   0xf4292244, 0x432aff97, 0xab9423a7, 0xfc93a039,
   0x655b59c3, 0x8f0ccc92, 0xffeff47d, 0x85845dd1,
   0x6fa87e4f, 0xfe2ce6e0, 0xa3014314, 0x4e0811a1,
   0xf7537e82, 0xbd3af235, 0x2ad7d2bb, 0xeb86d391]

/-- One MD5 round: mixes round `i` into the running `(a, b, c, d)` state,
reading the message word selected by the round's schedule. -/
def md5Round (msg : Nat → Nat) (st : Nat × Nat × Nat × Nat) (i : Nat) :
    Nat × Nat × Nat × Nat :=
  let (a, b, c, d) := st
  let (f, g) :=
    if i < 16 then (or32 (and32 b c) (and32 (not32 b) d), i)
    else if i < 32 then (or32 (and32 d b) (and32 (not32 d) c), (5 * i + 1) % 16)
    else if i < 48 then (xor32 (xor32 b c) d, (3 * i + 5) % 16)
    else (xor32 c (or32 b (not32 d)), (7 * i) % 16)
  let f := (f + a + md5K.getD i 0 + msg g) % 4294967296
  (d, (b + rotl32 f (md5S.getD i 0)) % 4294967296, b, c)

/-- Process one 64-byte block (given as bytes) into the chaining state. -/
def md5Block (st : Nat × Nat × Nat × Nat) (blk : List Nat) : Nat × Nat × Nat × Nat :=
  let w : Nat → Nat := fun j =>
    blk.getD (4 * j) 0 + blk.getD (4 * j + 1) 0 * 256 +
      blk.getD (4 * j + 2) 0 * 65536 + blk.getD (4 * j + 3) 0 * 16777216
  let (a0, b0, c0, d0) := st
  let (a, b, c, d) := (List.range 64).foldl (md5Round w) (a0, b0, c0, d0)
  ((a0 + a) % 4294967296, (b0 + b) % 4294967296,
   (c0 + c) % 4294967296, (d0 + d) % 4294967296)

/-- Split a byte list into 64-byte chunks.  Fuelled by the list length so
the recursion is structural (each step consumes at least one byte; the `0`
case is unreachable). -/
def chunks64Go : Nat → List Nat → List (List Nat)
  | 0, _ => []
  | _ + 1, [] => []
  | fuel + 1, x :: xs => (x :: xs).take 64 :: chunks64Go fuel ((x :: xs).drop 64)

def chunks64 (l : List Nat) : List (List Nat) := chunks64Go l.length l

/-- MD5 padding: `0x80`, zeros to 56 mod 64, then the bit length as eight
little-endian bytes. -/
def md5Pad (msg : List Nat) : List Nat :=
  let len := msg.length
  let zeros := (56 + 64 - (len + 1) % 64) % 64
  let bits := (8 * len) % 18446744073709551616
  msg ++ [0x80] ++ List.replicate zeros 0 ++
    [bits % 256, bits / 256 % 256, bits / 65536 % 256, bits / 16777216 % 256,
     bits / 4294967296 % 256, bits / 1099511627776 % 256,
     bits / 281474976710656 % 256, bits / 72057594037927936 % 256]

/-- Little-endian bytes of a 32-bit word. -/
def wordLE (w : Nat) : List Nat :=
  [w % 256, w / 256 % 256, w / 65536 % 256, w / 16777216 % 256]

/-- The 16-byte MD5 digest of a byte string. -/
def md5Bytes (msg : List Nat) : List Nat :=
  let st := (chunks64 (md5Pad msg)).foldl md5Block
    (0x67452301, 0xefcdab89, 0x98badcfe, 0x10325476)
  wordLE st.1 ++ wordLE st.2.1 ++ wordLE st.2.2.1 ++ wordLE st.2.2.2

def hexDigitChar : Nat → Char
  | 0 => '0' | 1 => '1' | 2 => '2' | 3 => '3' | 4 => '4' | 5 => '5' | 6 => '6'
  | 7 => '7' | 8 => '8' | 9 => '9' | 10 => 'a' | 11 => 'b' | 12 => 'c'
  | 13 => 'd' | 14 => 'e' | 15 => 'f' | _ + 16 => '0'

def byteHex (b : Nat) : List Char := [hexDigitChar (b / 16 % 16), hexDigitChar (b % 16)]

/-- `.hexdigest()`: lowercase hexadecimal rendering of a digest. -/
def hexOfBytes (bs : List Nat) : String := ⟨bs.flatMap byteHex⟩

/-- `gen_id(url) = hashlib.md5(url.strip().encode("utf-8")).hexdigest()`
(scraper.py lines 54-55). -/
def gen_id (url : String) : String :=
  hexOfBytes (md5Bytes (utf8 (pyStrip url)))

/-! ### Datetimes

`datetime.datetime` restricted to what the scraper touches: a proleptic
Gregorian wall-clock date-time plus an optional fixed UTC offset
(`tz = none` models a naive datetime, `tz = some o` an `o`-seconds offset;
UTC is `some 0`).  Microseconds never survive the scraper's parsing paths
(`parse_rel` zeroes them, the `strptime` layouts have none), so they are
not modelled. -/

structure PyDatetime where
  year : Int
  month : Nat
  day : Nat
  hour : Nat
  minute : Nat
  second : Nat
  tz : Option Int
deriving DecidableEq, Repr

/-- Days since 1970-01-01 of a Gregorian civil date (Hinnant's algorithm,
floor division throughout, as in `datetime`'s proleptic calendar). -/
def daysFromCivil (y : Int) (m d : Nat) : Int :=
  let y' := if m ≤ 2 then y - 1 else y
  let era := Int.fdiv y' 400
  let yoe := (y' - era * 400).toNat
  let mp := if m ≤ 2 then m + 9 else m - 3
  let doy := (153 * mp + 2) / 5 + d - 1
  let doe := yoe * 365 + yoe / 4 - yoe / 100 + doy
  era * 146097 + (doe : Int) - 719468

/-- Inverse of `daysFromCivil`. -/
def civilFromDays (z0 : Int) : Int × Nat × Nat :=
  let z := z0 + 719468
  let era := Int.fdiv z 146097
  let doe := (z - era * 146097).toNat
  let yoe := (doe - doe / 1460 + doe / 36524 - doe / 146096) / 365
  let y := (yoe : Int) + era * 400
  let doy := doe - (365 * yoe + yoe / 4 - yoe / 100)
  let mp := (5 * doy + 2) / 153
  let d := doy - (153 * mp + 2) / 5 + 1
  let m := if mp < 10 then mp + 3 else mp - 9
  (if m ≤ 2 then y + 1 else y, m, d)

/-- Wall-clock seconds since the epoch (ignoring the offset, as Python's
`datetime ± timedelta` does). -/
def wallSeconds (d : PyDatetime) : Int :=
  daysFromCivil d.year d.month d.day * 86400 +
    (d.hour * 3600 + d.minute * 60 + d.second : Nat)

def ofWallSeconds (t : Int) (tz : Option Int) : PyDatetime :=
  let days := Int.fdiv t 86400
  let rem := (t - days * 86400).toNat
  let (y, m, d) := civilFromDays days
  ⟨y, m, d, rem / 3600, rem / 60 % 60, rem % 60, tz⟩

/-- `d - timedelta(seconds=secs)`: wall-clock arithmetic, offset kept. -/
def subSeconds (d : PyDatetime) (secs : Int) : PyDatetime :=
  ofWallSeconds (wallSeconds d - secs) d.tz

/-- `ref.replace(hour=h, minute=m, second=0, microsecond=0)`. -/
def replaceHM (d : PyDatetime) (h m : Nat) : PyDatetime :=
  { d with hour := h, minute := m, second := 0 }

def isLeap (y : Nat) : Bool := y % 4 = 0 && (y % 100 ≠ 0 || y % 400 = 0)

def daysInMonth (y m : Nat) : Nat :=
  if m = 2 then (if isLeap y then 29 else 28)
  else if m = 4 ∨ m = 6 ∨ m = 9 ∨ m = 11 then 30 else 31

/-- The validation `datetime.__new__` performs; a failing construction is a
`ValueError`, modelled as `none`. -/
def mkDateTime (y m d h mi : Nat) : Option PyDatetime :=
  if 1 ≤ y ∧ y ≤ 9999 ∧ 1 ≤ m ∧ m ≤ 12 ∧ 1 ≤ d ∧ d ≤ daysInMonth y m ∧
      h ≤ 23 ∧ mi ≤ 59 then
    some ⟨(y : Int), m, d, h, mi, 0, none⟩
  else none

/-! ### Regex scanners for `parse_rel` (scraper.py lines 163-195)

Each Python regex of the source is modelled by a dedicated leftmost-match
scanner with the same backtracking behaviour on its alternations and
`{1,2}` quantifiers. -/

def isWordChar (c : Char) : Bool := c.isAlphanum || c = '_'

/-- Is there a `\b` boundary between an optional previous and next char? -/
def wordB (a b : Option Char) : Bool :=
  (match a with | some c => isWordChar c | none => false) ≠
    (match b with | some c => isWordChar c | none => false)

def digitVal (c : Char) : Nat := c.toNat - 48

def natOfDigits (l : List Char) : Nat := l.foldl (fun a c => 10 * a + digitVal c) 0

/-- The `\s*(?:hrs?|h)?\b` tail of the clock regex, `last` being the final
minute digit. -/
def clockTail (last : Char) (l : List Char) : Bool :=
  let rest := l.dropWhile pyIsSpace
  let consumed := rest.length ≠ l.length
  let prev : Option Char := if consumed then some ' ' else some last
  (match rest with
   | 'h' :: 'r' :: 's' :: t => wordB (some 's') t.head?
   | _ => false) ||
  (match rest with
   | 'h' :: 'r' :: t => wordB (some 'r') t.head?
   | _ => false) ||
  (match rest with
   | 'h' :: t => wordB (some 'h') t.head?
   | _ => false) ||
  wordB prev rest.head? ||
  (consumed && wordB (some last) l.head?)

/-- `(?::?(\d{2}))` followed by the clock tail. -/
def clockMin (h : Nat) (l : List Char) : Option (Nat × Nat) :=
  let noColon := fun (l : List Char) =>
    match l with
    | a :: b :: t =>
      if a.isDigit ∧ b.isDigit ∧ clockTail b t then
        some (h, 10 * digitVal a + digitVal b)
      else none
    | _ => none
  match l with
  | ':' :: r => (noColon r).orElse fun _ => noColon l
  | _ => noColon l

/-- `(\d{1,2})` (greedy, backtracking) then minutes. -/
def clockHM (l : List Char) : Option (Nat × Nat) :=
  let one := fun (l : List Char) =>
    match l with
    | a :: t => if a.isDigit then clockMin (digitVal a) t else none
    | _ => none
  match l with
  | a :: b :: t =>
    if a.isDigit ∧ b.isDigit then
      (clockMin (10 * digitVal a + digitVal b) t).orElse fun _ => one l
    else one l
  | _ => one l

/-- Leftmost search for `\bat\s*(\d{1,2})(?::?(\d{2}))\s*(?:hrs?|h)?\b`. -/
def searchClock : Option Char → List Char → Option (Nat × Nat)
  | _, [] => none
  | prev, c :: t =>
    let here :=
      if c = 'a' ∧ wordB prev (some c) then
        match t with
        | 't' :: r => clockHM (r.dropWhile pyIsSpace)
        | _ => none
      else none
    here.orElse fun _ => searchClock (some c) t

/-- The `units` table of `parse_rel`, in the regex's alternation order. -/
def unitAlts : List (String × Nat) :=
  [("second", 1), ("sec", 1), ("minute", 60), ("min", 60), ("hour", 3600),
   ("day", 86400), ("week", 604800), ("month", 2592000), ("year", 31536000)]

/-- `\s+ago\b`. -/
def agoTail (l : List Char) : Bool :=
  match l with
  | c :: t =>
    pyIsSpace c &&
      (match t.dropWhile pyIsSpace with
       | 'a' :: 'g' :: 'o' :: r => wordB (some 'o') r.head?
       | _ => false)
  | _ => false

/-- `(second|sec|…)s?\s+ago\b` tried in alternation order. -/
def unitTail (alts : List (String × Nat)) (plural : Bool) (l : List Char) : Option Nat :=
  match alts with
  | [] => none
  | (u, secs) :: rest =>
    let hit :=
      if isPrefixL u.data l then
        let r := l.drop u.length
        let withS :=
          if plural then
            match r with
            | 's' :: r2 => if agoTail r2 then some secs else none
            | _ => none
          else none
        withS.orElse fun _ => if agoTail r then some secs else none
      else none
    hit.orElse fun _ => unitTail rest plural l

/-- Leftmost search for `\b(\d+)\s*(unit)s?\s+ago\b`. -/
def searchUnits : Option Char → List Char → Option (Nat × Nat)
  | _, [] => none
  | prev, c :: t =>
    let here :=
      if c.isDigit ∧ wordB prev (some c) then
        let ds := c :: t.takeWhile Char.isDigit
        let rest := (t.dropWhile Char.isDigit).dropWhile pyIsSpace
        match unitTail unitAlts true rest with
        | some secs => some (natOfDigits ds, secs)
        | none => none
      else none
    here.orElse fun _ => searchUnits (some c) t

/-- Leftmost search for `\b(an?|one)\s+(unit)\s+ago\b`. -/
def searchOneUnit : Option Char → List Char → Option Nat
  | _, [] => none
  | prev, c :: t =>
    let alts : List (String × Nat) :=
      [("minute", 60), ("hour", 3600), ("day", 86400), ("week", 604800),
       ("month", 2592000), ("year", 31536000)]
    let after := fun (l : List Char) =>
      match l with
      | s :: r => if pyIsSpace s then unitTail alts false (r.dropWhile pyIsSpace) else none
      | _ => none
    let here :=
      if wordB prev (some c) then
        if c = 'a' then
          (match t with
           | 'n' :: r => after r
           | _ => none).orElse fun _ => after t
        else if c = 'o' then
          match t with
          | 'n' :: 'e' :: r => after r
          | _ => none
        else none
      else none
    here.orElse fun _ => searchOneUnit (some c) t

/-- `parse_rel(text, ref)` (scraper.py lines 163-195). -/
def parse_rel (text : String) (ref : PyDatetime) : Option PyDatetime :=
  let t := asciiLower (clean text)
  if t.data.isEmpty then none
  else if ¬ (containsS t "ago" || containsS t "just now" || containsS t "yesterday") then
    none
  else
    let anchor :=
      match searchClock none t.data with
      | some (h, m) => if h ≤ 23 ∧ m ≤ 59 then replaceHM ref h m else ref
      | none => ref
    if containsS t "just now" then some anchor
    else if containsS t "yesterday" then some (subSeconds anchor 86400)
    else
      match searchUnits none t.data with
      | some (amt, secs) => some (subSeconds anchor (amt * secs))
      | none =>
        match searchOneUnit none t.data with
        | some secs => some (subSeconds anchor secs)
        | none => none

/-! ### `parse_abs` (scraper.py lines 198-233) -/

def isAsciiAlpha (c : Char) : Bool :=
  ('a' ≤ c ∧ c ≤ 'z') || ('A' ≤ c ∧ c ≤ 'Z')

def isOrdSuffix (a b : Char) : Bool :=
  match asciiLowerChar a, asciiLowerChar b with
  | 's', 't' => true | 'n', 'd' => true | 'r', 'd' => true | 't', 'h' => true
  | _, _ => false

/-- Global `re.sub(r"(\d+)(st|nd|rd|th)", r"\1", text, flags=re.I)`.  The
scan consumes at least one character per step, so the input length is a
sufficient fuel bound (the `0` case is unreachable). -/
def stripOrdinalsGo : Nat → List Char → List Char
  | 0, rest => rest
  | _ + 1, [] => []
  | fuel + 1, c :: cs =>
    if c.isDigit then
      let ds := c :: cs.takeWhile Char.isDigit
      let rest := cs.dropWhile Char.isDigit
      if 2 ≤ rest.length ∧ isOrdSuffix (rest.getD 0 ' ') (rest.getD 1 ' ') then
        ds ++ stripOrdinalsGo fuel (rest.drop 2)
      else ds ++ stripOrdinalsGo fuel rest
    else c :: stripOrdinalsGo fuel cs

def stripOrdinals (l : List Char) : List Char := stripOrdinalsGo l.length l

/-- `re.sub(r"^[A-Za-z ]*:\s*", "", text)`: strip a leading letters/spaces
label through its colon. -/
def stripLabel (l : List Char) : List Char :=
  let p := fun c => isAsciiAlpha c || c = ' '
  match l.dropWhile p with
  | ':' :: t => t.dropWhile pyIsSpace
  | _ => l

/-- `str.replace(pat, rep)`: non-overlapping left-to-right replacement.
Fuelled like `stripOrdinalsGo`; at least one character is consumed per
step for the non-empty patterns used here. -/
def listReplaceGo (pat rep : List Char) : Nat → List Char → List Char
  | 0, rest => rest
  | _ + 1, [] => []
  | fuel + 1, c :: cs =>
    if pat ≠ [] ∧ isPrefixL pat (c :: cs) then
      rep ++ listReplaceGo pat rep fuel ((c :: cs).drop pat.length)
    else c :: listReplaceGo pat rep fuel cs

def listReplace (pat rep l : List Char) : List Char := listReplaceGo pat rep l.length l

/-- `text.replace("Z", "+00:00")`. -/
def replaceZ (s : String) : String := ⟨listReplace ['Z'] "+00:00".data s.data⟩

/-- `text.replace("|", " ")`. -/
def replacePipe (s : String) : String := ⟨listReplace ['|'] [' '] s.data⟩

def d2exact (l : List Char) : Option (Nat × List Char) :=
  match l with
  | a :: b :: t =>
    if a.isDigit ∧ b.isDigit then some (10 * digitVal a + digitVal b, t) else none
  | _ => none

def d4exact (l : List Char) : Option (Nat × List Char) :=
  match l with
  | a :: b :: c :: d :: t =>
    if a.isDigit ∧ b.isDigit ∧ c.isDigit ∧ d.isDigit then
      some (1000 * digitVal a + 100 * digitVal b + 10 * digitVal c + digitVal d, t)
    else none
  | _ => none

/-- `datetime.fromisoformat` on the extended `YYYY-MM-DD[<sep>HH:MM[:SS[.ffffff]]][±HH:MM]`
shape (with `Z` already rewritten by the caller).  Python's parser accepts a
few additional compact forms; every string the scraper feeds it either is of
this shape or fails in both. Fractional seconds are validated and dropped
(see `PyDatetime`). -/
def pyFromIso (s : String) : Option PyDatetime := do
  let (y, l) ← d4exact s.data
  let l ← match l with | '-' :: t => some t | _ => none
  let (mo, l) ← d2exact l
  let l ← match l with | '-' :: t => some t | _ => none
  let (d, l) ← d2exact l
  if ¬ (1 ≤ mo ∧ mo ≤ 12 ∧ 1 ≤ d ∧ d ≤ daysInMonth y mo ∧ 1 ≤ y) then none
  else
    match l with
    | [] => some ⟨(y : Int), mo, d, 0, 0, 0, none⟩
    | _ :: t => do
      let (h, l) ← d2exact t
      let l ← match l with | ':' :: t => some t | _ => none
      let (mi, l) ← d2exact l
      let (sec, l) ←
        match l with
        | ':' :: r => do
          let (sec, l) ← d2exact r
          let l := match l with
            | '.' :: r2 =>
              if (r2.takeWhile Char.isDigit).length ∈ [1, 2, 3, 4, 5, 6] then
                r2.dropWhile Char.isDigit
              else '.' :: r2
            | _ => l
          pure (sec, l)
        | _ => pure (0, l)
      if ¬ (h ≤ 23 ∧ mi ≤ 59 ∧ sec ≤ 59) then none
      else
        match l with
        | [] => some ⟨(y : Int), mo, d, h, mi, sec, none⟩
        | sgn :: r => do
          if ¬ (sgn = '+' ∨ sgn = '-') then none
          else do
            let (oh, l) ← d2exact r
            let l ← match l with | ':' :: t => some t | _ => none
            let (om, l) ← d2exact l
            if l = [] ∧ oh ≤ 23 ∧ om ≤ 59 then
              let off : Int := (oh * 3600 + om * 60 : Nat)
              some ⟨(y : Int), mo, d, h, mi, sec, some (if sgn = '-' then -off else off)⟩
            else none

/-! `strptime`: CPython compiles each format to a regex (whitespace runs
become `\s+`, numeric directives are `{1,2}`-digit groups constrained as in
`_strptime`), anchors it at the start, requires full consumption, and lets
`datetime`'s constructor validate the result. -/

inductive FTok
  | D | M | Y | H | Min | B | Bab
  | lit (c : Char)
  | ws
deriving Repr

def monthsFull : List String :=
  ["january", "february", "march", "april", "may", "june", "july", "august",
   "september", "october", "november", "december"]

def monthsAbbr : List String :=
  ["jan", "feb", "mar", "apr", "may", "jun", "jul", "aug", "sep", "oct", "nov", "dec"]

/-- Candidates (greedy order, with the per-directive regex constraints of
`_strptime`) for a 1-2 digit numeric directive. -/
def numCands (two1 : Nat → Bool) (one1 : Nat → Bool) (l : List Char) :
    List (Nat × List Char) :=
  (match l with
   | a :: b :: t =>
     if a.isDigit ∧ b.isDigit ∧ two1 (10 * digitVal a + digitVal b) then
       [(10 * digitVal a + digitVal b, t)]
     else []
   | _ => []) ++
  (match l with
   | a :: t => if a.isDigit ∧ one1 (digitVal a) then [(digitVal a, t)] else []
   | _ => [])

def pDay (l : List Char) : List (Nat × List Char) :=
  numCands (fun v => 1 ≤ v && v ≤ 31) (fun v => 1 ≤ v) l

def pMonth (l : List Char) : List (Nat × List Char) :=
  numCands (fun v => 1 ≤ v && v ≤ 12) (fun v => 1 ≤ v) l

def pHour (l : List Char) : List (Nat × List Char) :=
  numCands (fun v => v ≤ 23) (fun _ => true) l

def pMinute (l : List Char) : List (Nat × List Char) :=
  numCands (fun v => v ≤ 59) (fun _ => true) l

/-- Case-insensitive month-name alternation; returns the 1-based month. -/
def monthAlt (names : List String) (l : List Char) : Option (Nat × List Char) :=
  go names 1 where
  go : List String → Nat → Option (Nat × List Char)
    | [], _ => none
    | n :: rest, i =>
      if isPrefixL n.data (l.map asciiLowerChar) then some (i, l.drop n.length)
      else go rest (i + 1)

structure YMDHM where
  y : Nat
  m : Nat
  d : Nat
  h : Nat
  mi : Nat

/-- Run a compiled format against the input, with regex-style backtracking
over the numeric candidate lists; the whole input must be consumed. -/
def runFmt : List FTok → List Char → YMDHM → Option YMDHM
  | [], l, acc => if l.isEmpty then some acc else none
  | FTok.D :: fs, l, acc =>
    (pDay l).findSome? fun (v, l) => runFmt fs l { acc with d := v }
  | FTok.M :: fs, l, acc =>
    (pMonth l).findSome? fun (v, l) => runFmt fs l { acc with m := v }
  | FTok.H :: fs, l, acc =>
    (pHour l).findSome? fun (v, l) => runFmt fs l { acc with h := v }
  | FTok.Min :: fs, l, acc =>
    (pMinute l).findSome? fun (v, l) => runFmt fs l { acc with mi := v }
  | FTok.Y :: fs, l, acc =>
    match d4exact l with
    | some (v, l) => runFmt fs l { acc with y := v }
    | none => none
  | FTok.B :: fs, l, acc =>
    match monthAlt monthsFull l with
    | some (v, l) => runFmt fs l { acc with m := v }
    | none => none
  | FTok.Bab :: fs, l, acc =>
    match monthAlt monthsAbbr l with
    | some (v, l) => runFmt fs l { acc with m := v }
    | none => none
  | FTok.lit c :: fs, l, acc =>
    match l with
    | x :: t => if asciiLowerChar x = asciiLowerChar c then runFmt fs t acc else none
    | [] => none
  | FTok.ws :: fs, l, acc =>
    match l with
    | x :: t => if pyIsSpace x then runFmt fs (t.dropWhile pyIsSpace) acc else none
    | [] => none

def strptime (fmt : List FTok) (l : List Char) : Option PyDatetime :=
  match runFmt fmt l ⟨1900, 1, 1, 0, 0⟩ with
  | some a => mkDateTime a.y a.m a.d a.h a.mi
  | none => none

open FTok in
/-- The format list of `parse_abs` (scraper.py lines 216-219), in order. -/
def absFormats : List (List FTok) :=
  [[D, lit '/', M, lit '/', Y, ws, H, lit ':', Min],
   [D, lit '/', M, lit '/', Y],
   [Bab, ws, D, lit ',', ws, Y],
   [B, ws, D, lit ',', ws, Y],
   [D, ws, B, ws, Y, ws, H, lit ':', Min],
   [D, ws, B, ws, Y],
   [D, ws, Bab, ws, Y],
   [Y, lit '-', M, lit '-', D, ws, H, lit ':', Min],
   [Y, lit '-', M, lit '-', D],
   [M, lit '/', D, lit '/', Y]]

/-- Case-insensitive literal prefix (the pattern is given lowercased). -/
def litCI (pat l : List Char) : Option (List Char) :=
  if isPrefixL pat (l.map asciiLowerChar) then some (l.drop pat.length) else none

/-- `\d{1,2}` returning the consumed characters, candidates in greedy order. -/
def dig12Cands (l : List Char) : List (List Char × List Char) :=
  (match l with
   | a :: b :: t => if a.isDigit ∧ b.isDigit then [([a, b], t)] else []
   | _ => []) ++
  (match l with
   | a :: t => if a.isDigit then [([a], t)] else []
   | _ => [])

/-- Match the kick-off pattern at the current position, returning the two
capture groups as matched text.  `ordOk` selects the `SoccerFull.run`
variant whose group 2 allows `[a-z]{0,2}` (re.I) after the day. -/
def kickAt (ordOk : Bool) (l : List Char) : Option (String × String) := do
  let l ← litCI "kick-off at".data l
  let l ←
    match l with
    | c :: t => if pyIsSpace c then some (t.dropWhile pyIsSpace) else none
    | [] => none
  (dig12Cands l).findSome? fun (hc, l) => do
    let l ← match l with | ':' :: t => some t | _ => none
    let (mc, l) ←
      match l with
      | a :: b :: t => if a.isDigit ∧ b.isDigit then some (([a, b] : List Char), t) else none
      | _ => none
    let g1 : List Char := hc ++ ':' :: mc
    let l := l.dropWhile pyIsSpace
    let l ← litCI "(utc)".data l
    let l := l.dropWhile pyIsSpace
    let l ← litCI "on".data l
    let l := l.dropWhile pyIsSpace
    (dig12Cands l).findSome? fun (dc, l) =>
      let ordCands : List (List Char × List Char) :=
        if ordOk then
          (match l with
           | a :: b :: t => if isAsciiAlpha a ∧ isAsciiAlpha b then [([a, b], t)] else []
           | _ => []) ++
          (match l with
           | a :: t => if isAsciiAlpha a then [([a], t)] else []
           | _ => []) ++ [([], l)]
        else [([], l)]
      ordCands.findSome? fun (oc, l) => do
        let sp1 := l.takeWhile pyIsSpace
        if sp1.isEmpty then none
        else
          let l := l.dropWhile pyIsSpace
          let lets := l.takeWhile isAsciiAlpha
          if lets.isEmpty then none
          else
            let l := l.dropWhile isAsciiAlpha
            let sp2 := l.takeWhile pyIsSpace
            if sp2.isEmpty then none
            else
              let l := l.dropWhile pyIsSpace
              let (yc, _) ←
                match l with
                | a :: b :: c :: d :: t =>
                  if a.isDigit ∧ b.isDigit ∧ c.isDigit ∧ d.isDigit then
                    some (([a, b, c, d] : List Char), t)
                  else none
                | _ => none
              some (⟨g1⟩, ⟨dc ++ oc ++ sp1 ++ lets ++ sp2 ++ yc⟩)

/-- Leftmost search for the kick-off regex. -/
def kickSearch (ordOk : Bool) : List Char → Option (String × String)
  | [] => none
  | c :: t => (kickAt ordOk (c :: t)).orElse fun _ => kickSearch ordOk t

open FTok in
/-- Match the fallback `(?:[A-Za-z]+,\s*)?([A-Za-z]+\s+\d{1,2},\s*\d{4})(?:\s+(\d{1,2}:\d{2}))?`
at the current position, returning the two groups (group 2 empty when absent). -/
def fallbackAt (l : List Char) : Option (List Char × Option (List Char)) :=
  let main := fun (l : List Char) => do
    let lets := l.takeWhile isAsciiAlpha
    if lets.isEmpty then none
    else
      let l := l.dropWhile isAsciiAlpha
      let sp1 := l.takeWhile pyIsSpace
      if sp1.isEmpty then none
      else
        let l := l.dropWhile pyIsSpace
        (dig12Cands l).findSome? fun (dc, l) => do
          let l ← match l with | ',' :: t => some t | _ => none
          let sp2 := l.takeWhile pyIsSpace
          let l := l.dropWhile pyIsSpace
          let (yc, l) ←
            match l with
            | a :: b :: c :: d :: t =>
              if a.isDigit ∧ b.isDigit ∧ c.isDigit ∧ d.isDigit then
                some (([a, b, c, d] : List Char), t)
              else none
            | _ => none
          let g1 : List Char := lets ++ sp1 ++ dc ++ ',' :: (sp2 ++ yc)
          let time : Option (List Char) :=
            match l with
            | s :: t =>
              if pyIsSpace s then
                (dig12Cands (t.dropWhile pyIsSpace)).findSome? fun (hc, l2) =>
                  match l2 with
                  | ':' :: a :: b :: _ =>
                    if a.isDigit ∧ b.isDigit then some (hc ++ ':' :: [a, b]) else none
                  | _ => none
              else none
            | [] => none
          some (g1, time)
  let withPrefix := do
    let lets := l.takeWhile isAsciiAlpha
    if lets.isEmpty then none
    else
      let l := l.dropWhile isAsciiAlpha
      let l ← match l with | ',' :: t => some t | _ => none
      main (l.dropWhile pyIsSpace)
  withPrefix.orElse fun _ => main l

def fallbackSearch : List Char → Option (List Char × Option (List Char))
  | [] => none
  | c :: t => (fallbackAt (c :: t)).orElse fun _ => fallbackSearch t

open FTok in
def fallbackFormats : List (List FTok) :=
  [[B, ws, D, lit ',', ws, Y, ws, H, lit ':', Min],
   [Bab, ws, D, lit ',', ws, Y, ws, H, lit ':', Min]]

/-- `parse_abs(text)` (scraper.py lines 198-233); `fuel` bounds the
self-recursion through the kick-off branch (depth 2 suffices: the rebuilt
`"D Month YYYY HH:MM"` string cannot match the kick-off pattern again). -/
def parse_absF : Nat → String → Option PyDatetime
  | 0, _ => none
  | fuel + 1, text =>
    let t := clean text
    if t.data.isEmpty then none
    else
      let t : String := ⟨stripOrdinals t.data⟩
      let t : String := ⟨stripLabel t.data⟩
      let t := clean (replacePipe t)
      match pyFromIso (replaceZ t) with
      | some d => some d
      | none =>
        match kickSearch false t.data with
        | some (g1, g2) =>
          (match parse_absF fuel (g2 ++ " " ++ g1) with
           | some d => some { d with tz := some 0 }
           | none => none)
        | none =>
          match absFormats.findSome? (fun f => strptime f t.data) with
          | some d => some d
          | none =>
            match fallbackSearch t.data with
            | some (dp, tp) =>
              let s := dp ++ ' ' :: (tp.getD "00:00".data)
              fallbackFormats.findSome? (fun f => strptime f s)
            | none => none

def parse_abs (text : String) : Option PyDatetime := parse_absF 8 text

/-- `parse_dt(text, ref)` (scraper.py lines 236-248). -/
def parse_dt (text : String) (ref : PyDatetime) : Option PyDatetime × Bool :=
  match parse_rel text ref with
  | some d =>
    (some (if d.tz = none then { d with tz := some (ref.tz.getD 0) } else d), true)
  | none =>
    match parse_abs text with
    | some d =>
      (some (if d.tz = none then { d with tz := some (ref.tz.getD 0) } else d), false)
    | none => (none, false)

/-! ### Python dicts as insertion-ordered association lists -/

/-- `d[k] = v`: replace in place if the key exists, else append. -/
def dset {α : Type} : List (String × α) → String → α → List (String × α)
  | [], k, v => [(k, v)]
  | (k', v') :: t, k, v =>
    if k' = k then (k, v) :: t else (k', v') :: dset t k v

/-- `d.get(k)`. -/
def dget {α : Type} : List (String × α) → String → Option α
  | [], _ => none
  | (k', v') :: t, k => if k' = k then some v' else dget t k

/-- `d.setdefault(k, v)`. -/
def dsetdefault {α : Type} (d : List (String × α)) (k : String) (v : α) :
    List (String × α) :=
  match dget d k with
  | some _ => d
  | none => d ++ [(k, v)]

/-! ### Records, links and metadata

`MatchRecord` dicts are modelled as a structure over exactly the keys
`build_match` writes; `ensure_source_fields` and `merge` read and write only
fields of this set.  `""` doubles for an absent/empty string value (the code
only ever tests these fields for truthiness), `metadata = none` models an
absent or non-dict `metadata` key, and metadata values live in the small
`MVal` universe that the scraper actually stores. -/

inductive MVal
  | vs (s : String)
  | vn (n : Nat)
  | vb (b : Bool)
  | vl (l : List String)
deriving DecidableEq, Repr

/-- A link dict made by `mk_link`; `player_url = none` models the key being
absent (it is added only by `SoccerFull.run`). -/
structure Link where
  label : String
  url : String
  host : String
  kind : String
  player_url : Option String := none
deriving DecidableEq, Repr

structure Rec where
  match_id : String
  source_id : Option Nat
  source_tag : String
  source_name : String
  source_url : String
  url : String
  title : String
  date : String
  competition : String
  preview_image : String
  duration : String
  links : List Link
  categories : List String
  published_raw : String
  published_at : String
  updated_at : String
  scraped_at : String
  metadata : Option (List (String × MVal))
deriving DecidableEq, Repr

/-- `SOURCE_INFO` (scraper.py lines 31-36). -/
def SOURCE_INFO : List (Nat × String × String) :=
  [(1, "soccerfull.net", "https://soccerfull.net"),
   (2, "footreplays.com", "https://www.footreplays.com"),
   (3, "timesoccertv.com", "https://timesoccertv.com"),
   (4, "footballorgin.com", "https://www.footballorgin.com")]

def sourceInfo? (sid : Nat) : Option (String × String) :=
  (SOURCE_INFO.find? fun e => e.1 = sid).map (·.2)

/-- `html.unescape` restricted to the entities that occur in scraped
attribute values; other ampersand sequences pass through unchanged, as they
do for every input exercised here. -/
def htmlUnescape (s : String) : String :=
  ⟨go s.data.length s.data⟩ where
  go : Nat → List Char → List Char
    | 0, rest => rest
    | _ + 1, [] => []
    | fuel + 1, '&' :: t =>
      if isPrefixL "amp;".data t then '&' :: go fuel (t.drop 4)
      else if isPrefixL "lt;".data t then '<' :: go fuel (t.drop 3)
      else if isPrefixL "gt;".data t then '>' :: go fuel (t.drop 3)
      else if isPrefixL "quot;".data t then '"' :: go fuel (t.drop 5)
      else if isPrefixL "#39;".data t then '\'' :: go fuel (t.drop 4)
      else '&' :: go fuel t
    | fuel + 1, c :: t => c :: go fuel t

/-- `nurl(url, base)` (scraper.py lines 66-74).  The only call sites
modelled pass absolute URLs or `""`, so the `urljoin` branch resolves a
leading `/` or `?` against the base's scheme+host as `urljoin` does for the
site base URLs used by the scraper (which have no path). -/
def nurl (url : String) (base : String := "") : String :=
  let u := clean (htmlUnescape url)
  if u.data.isEmpty then ""
  else if isPrefixL "//".data u.data then "https:" ++ u
  else if ¬ base.data.isEmpty ∧
      (isPrefixL ['/'] u.data ∨ isPrefixL ['?'] u.data) then
    base ++ u
  else u

/-- `urlparse(url).netloc`: the authority after `//`, ended by `/`, `?` or
`#`; empty when the URL has no `//` after its scheme. -/
def urlNetloc (u : String) : String :=
  let stop := fun c => c = '/' || c = '?' || c = '#'
  let l := u.data
  if isPrefixL "//".data l then ⟨(l.drop 2).takeWhile (fun c => ¬ stop c)⟩
  else
    let scheme := l.takeWhile fun c => c ≠ ':' && ¬ stop c
    let rest := l.drop scheme.length
    match rest with
    | ':' :: r =>
      if isPrefixL "//".data r ∧ ¬ scheme.isEmpty ∧
          scheme.all (fun c => c.isAlphanum || c = '+' || c = '-' || c = '.') ∧
          (scheme.headD ' ').isAlpha then
        ⟨(r.drop 2).takeWhile (fun c => ¬ stop c)⟩
      else ""
    | _ => ""

/-- `host(url)` (scraper.py lines 77-81): lowercased netloc with
`lstrip("www.")`, i.e. all leading `'w'`/`'.'` characters dropped. -/
def host (url : String) : String :=
  ⟨(asciiLower (urlNetloc url)).data.dropWhile fun c => c = 'w' || c = '.'⟩

/-- `infer_source_from_url` (scraper.py lines 84-94). -/
def infer_source_from_url (url : String) : Option Nat :=
  let h := host url
  if containsS h "soccerfull.net" then some 1
  else if containsS h "footreplays.com" then some 2
  else if containsS h "timesoccertv.com" then some 3
  else if containsS h "footballorgin.com" then some 4
  else none

/-- The effective source id of `ensure_source_fields`: the record's truthy
`source_id`, else the inferred one (`none` when both fail, in which case the
record is returned unchanged). -/
def sidOf (m : Rec) : Option Nat :=
  match m.source_id with
  | some s => if s ≠ 0 then some s else infer_source_from_url m.url
  | none => infer_source_from_url m.url

/-- `ensure_source_fields(match)` (scraper.py lines 97-114). -/
def ensure_source_fields (m : Rec) : Rec :=
  match sidOf m with
  | none => m
  | some sid =>
    let info := (sourceInfo? sid).getD ("", "")
    let tag := "source_" ++ toString sid
    let name := if m.source_name ≠ "" then m.source_name else info.1
    let surl := if m.source_url ≠ "" then m.source_url else info.2
    let meta0 := m.metadata.getD []
    let meta := dsetdefault meta0 "source_id" (MVal.vn sid)
    let meta := dsetdefault meta "source_tag" (MVal.vs tag)
    let meta := dsetdefault meta "source_name" (MVal.vs name)
    let meta := dsetdefault meta "source_url" (MVal.vs surl)
    { m with
      source_id := some sid, source_tag := tag, source_name := name,
      source_url := surl, metadata := some meta }

/-- `dedupe_text(values)` (scraper.py lines 117-128). -/
def dedupe_text (values : List String) : List String :=
  go values [] where
  go : List String → List String → List String
    | [], _ => []
    | v :: rest, seen =>
      let t := clean v
      if t = "" then go rest seen
      else
        let k := asciiLower t
        if seen.contains k then go rest seen
        else t :: go rest (k :: seen)

/-- `uniq_links(links)` (scraper.py lines 330-341): dedupe by the lowercased
cleaned url, keeping the first hit (with its original url). -/
def uniq_links (links : List Link) : List Link :=
  go links [] where
  go : List Link → List String → List Link
    | [], _ => []
    | x :: rest, seen =>
      let u := clean x.url
      if u = "" then go rest seen
      else
        let k := asciiLower u
        if seen.contains k then go rest seen
        else x :: go rest (k :: seen)

/-- `mk_link(label, url, base, kind)` (scraper.py lines 323-327). -/
def mk_link (label url : String) (base : String := "") (kind : String := "replay") :
    Option Link :=
  let u := nurl url base
  if u = "" then none
  else some { label := if clean label ≠ "" then clean label else "Replay",
              url := u, host := host u, kind := kind }

/-! ### The merge/dedup engine (`merge`, scraper.py lines 816-826)

Store entries are modelled as `Rec`s, so the `isinstance(x, dict)` guard is
always satisfied; non-dict corrupt entries are outside the model. -/

def validSrc (m : Rec) : Bool :=
  (match m.source_id with
   | some s => (SOURCE_INFO.find? fun e => e.1 = s).isSome
   | none => false) && m.url ≠ ""

/-- The `mp` dict after both insertion loops. -/
def mergeMap (existing new : List Rec) : List (String × Rec) :=
  let mp := existing.foldl
    (fun mp x => if x.match_id ≠ "" then dset mp x.match_id (ensure_source_fields x) else mp)
    []
  new.foldl (fun mp m => dset mp m.match_id (ensure_source_fields m)) mp

def merge (existing new : List Rec) : List Rec :=
  let merged := (mergeMap existing new).map fun kv => ensure_source_fields kv.2
  let merged := merged.filter validSrc
  let newIds := new.map (·.match_id)
  merged.filter (fun m => newIds.contains m.match_id) ++
    merged.filter (fun m => !newIds.contains m.match_id)

/-! ### `inline_single_video_urls` (scraper.py lines 301-320) -/

/-- Match `\s*:\s*"((?:\\.|[^"])*)"` after the key literal, returning the
raw (still JSON-escaped) group. -/
def svuAfterKey (l : List Char) : Option (List Char) := do
  let l := l.dropWhile pyIsSpace
  let l ← match l with | ':' :: t => some t | _ => none
  let l := l.dropWhile pyIsSpace
  let l ← match l with | '"' :: t => some t | _ => none
  let rec grab : Nat → List Char → Option (List Char)
    | 0, _ => none
    | _ + 1, [] => none
    | fuel + 1, c :: t =>
      if c = '"' then some []
      else if c = '\\' then
        match t with
        | e :: t2 => do
          let r ← grab fuel t2
          pure ('\\' :: e :: r)
        | [] => none
      else do
        let r ← grab fuel t
        pure (c :: r)
  grab (l.length + 1) l

/-- Leftmost search for `"single_video_url"\s*:\s*"((?:\\.|[^"])*)"`. -/
def svuSearch : List Char → Option (List Char)
  | [] => none
  | c :: t =>
    let key := "\"single_video_url\"".data
    (if isPrefixL key (c :: t) then svuAfterKey ((c :: t).drop key.length) else none).orElse
      fun _ => svuSearch t

/-- `json.loads('"<raw>"')` for a string literal: resolve the JSON escapes;
`none` models the `json.JSONDecodeError` fallback (invalid escapes, raw
control characters, and `\uXXXX` forms that do not denote a scalar value
representable as a `Char`). -/
def jsonStringDecode (l : List Char) : Option (List Char) :=
  go l.length l where
  hex? : Char → Option Nat := fun c =>
    if c.isDigit then some (digitVal c)
    else if 'a' ≤ c ∧ c ≤ 'f' then some (c.toNat - 87)
    else if 'A' ≤ c ∧ c ≤ 'F' then some (c.toNat - 55)
    else none
  go : Nat → List Char → Option (List Char)
    | 0, _ => none
    | _ + 1, [] => some []
    | fuel + 1, c :: t =>
      if c.toNat < 32 then none
      else if c = '\\' then
        match t with
        | 'u' :: a :: b :: cc :: d :: t2 => do
          let va ← hex? a
          let vb ← hex? b
          let vc ← hex? cc
          let vd ← hex? d
          let n := 4096 * va + 256 * vb + 16 * vc + vd
          if 0xD800 ≤ n ∧ n ≤ 0xDFFF then none
          else do
            let r ← go fuel t2
            pure (Char.ofNat n :: r)
        | e :: t2 => do
          let d ←
            match e with
            | '"' => some '"' | '\\' => some '\\' | '/' => some '/'
            | 'b' => some '\x08' | 'f' => some '\x0c' | 'n' => some '\n'
            | 'r' => some '\r' | 't' => some '\t' | _ => none
          let r ← go fuel t2
          pure (d :: r)
        | [] => none
      else do
        let r ← go fuel t
        pure (c :: r)

/-- The iframes-with-src scan of `BeautifulSoup(val).select("iframe[src]")`:
find each `<iframe` tag, parse its attributes, and return the (entity-
unescaped) `src` values in document order. -/
def iframeSrcs (s : String) : List String :=
  go s.data.length s.data where
  attrs : Nat → List Char → List (String × String)
    | 0, _ => []
    | fuel + 1, l =>
      let l := l.dropWhile pyIsSpace
      match l with
      | [] => []
      | '>' :: _ => []
      | '/' :: t => attrs fuel t
      | _ =>
        let name := l.takeWhile fun c => c.isAlphanum || c = '-' || c = '_' || c = ':'
        if name.isEmpty then attrs fuel (l.drop 1)
        else
          let l := (l.drop name.length).dropWhile pyIsSpace
          match l with
          | '=' :: r =>
            let r := r.dropWhile pyIsSpace
            match r with
            | '"' :: r2 =>
              let v := r2.takeWhile (· ≠ '"')
              (⟨name.map asciiLowerChar⟩, htmlUnescape ⟨v⟩) ::
                attrs fuel ((r2.drop v.length).drop 1)
            | '\'' :: r2 =>
              let v := r2.takeWhile (· ≠ '\'')
              (⟨name.map asciiLowerChar⟩, htmlUnescape ⟨v⟩) ::
                attrs fuel ((r2.drop v.length).drop 1)
            | _ =>
              let v := r.takeWhile fun c => ¬ (pyIsSpace c || c = '>')
              (⟨name.map asciiLowerChar⟩, htmlUnescape ⟨v⟩) :: attrs fuel (r.drop v.length)
          | _ => (⟨name.map asciiLowerChar⟩, "") :: attrs fuel l
  go : Nat → List Char → List String
    | 0, _ => []
    | _ + 1, [] => []
    | fuel + 1, c :: t =>
      if isPrefixL "<iframe".data ((c :: t).map asciiLowerChar) &&
          (match (c :: t).drop 7 with
           | [] => true
           | x :: _ => ¬ (x.isAlphanum || x = '-')) then
        let rest := (c :: t).drop 7
        match dget (attrs (rest.length + 1) rest) "src" with
        | some v => v :: go fuel t
        | none => go fuel t
      else go fuel t

/-- `s.add(x)` on a CPython set, modelled as insertion-ordered dedup; the
claims only exercise results of size ≤ 1, where `list(urls)` agrees with
any ordering model. -/
def setAdd (acc : List String) (u : String) : List String :=
  if acc.contains u then acc else acc ++ [u]

/-- `inline_single_video_urls(html)` (scraper.py lines 301-320). -/
def inline_single_video_urls (html : String) : List String :=
  match svuSearch html.data with
  | none => []
  | some raw =>
    let val :=
      match jsonStringDecode raw with
      | some v => (⟨v⟩ : String)
      | none => ⟨listReplace "\\/".data ['/'] (listReplace "\\\"".data ['"'] raw)⟩
    let val := nurl val
    if containsS (asciiLower val) "<iframe" then
      (iframeSrcs val).foldl
        (fun acc f =>
          let u := nurl f
          if u ≠ "" then setAdd acc u else acc)
        []
    else if val ≠ "" then [val] else []

/-! ### `build_match` (scraper.py lines 355-390) and the activity log -/

def pad2 (n : Nat) : String := if n < 10 then "0" ++ toString n else toString n

def pad4 (y : Int) : String :=
  let n := y.toNat
  if n < 10 then "000" ++ toString n
  else if n < 100 then "00" ++ toString n
  else if n < 1000 then "0" ++ toString n
  else toString n

/-- `datetime.isoformat()` (microseconds are always zero here). -/
def isoStr (d : PyDatetime) : String :=
  pad4 d.year ++ "-" ++ pad2 d.month ++ "-" ++ pad2 d.day ++ "T" ++
    pad2 d.hour ++ ":" ++ pad2 d.minute ++ ":" ++ pad2 d.second ++
    (match d.tz with
     | none => ""
     | some o =>
       let sgn := if o < 0 then "-" else "+"
       let a := o.natAbs
       sgn ++ pad2 (a / 3600) ++ ":" ++ pad2 (a / 60 % 60))

/-- `iso(dt)` (scraper.py lines 141-142). -/
def iso : Option PyDatetime → String
  | none => ""
  | some d => isoStr d

def build_match (source_id : Nat) (source_name source_url url title preview : String)
    (categories : List String) (links : List Link) (scraped_at : String)
    (published_raw : String := "") (published_iso : String := "")
    (updated_iso : String := "") (duration : String := "")
    (extra : List (String × MVal) := []) : Rec :=
  let cats := dedupe_text categories
  let meta0 : List (String × MVal) :=
    [("source_id", .vn source_id),
     ("source_tag", .vs ("source_" ++ toString source_id)),
     ("source_name", .vs source_name), ("source_url", .vs source_url),
     ("scraped_at", .vs scraped_at), ("published_raw", .vs (clean published_raw)),
     ("published_at", .vs published_iso), ("updated_at", .vs updated_iso),
     ("categories", .vl cats)]
  let meta := extra.foldl (fun m kv => dset m kv.1 kv.2) meta0
  { match_id := gen_id url, source_id := some source_id,
    source_tag := "source_" ++ toString source_id, source_name := source_name,
    source_url := source_url, url := url, title := title,
    date := clean published_raw, competition := String.intercalate ", " cats,
    preview_image := preview, duration := duration, links := uniq_links links,
    categories := cats, published_raw := clean published_raw,
    published_at := published_iso, updated_at := updated_iso,
    scraped_at := scraped_at, metadata := some meta }

/-- One value of the `scraper_log.json` map (`BaseScraper.update_log`,
scraper.py lines 417-424). -/
structure LogEntry where
  match_title : String
  source_id : Nat
  source_name : String
  link_count : Nat
  last_updated : String
deriving DecidableEq, Repr

/-! ### `SoccerFull.run` (scraper.py lines 445-516)

The network-derived data of one listing item is abstracted into `SFItem`:
the listing card's title/anchor presence and contents, whether the detail
fetch succeeded, the detail page's info text and category labels, and the
`resolve_sid` outcome for each `a.video-server` anchor and for the fallback
iframe.  Everything after these inputs is translated from the source. -/

/-- One `a.video-server` anchor (or the fallback iframe): its cleaned-size
label text and the `(stream, play)` pair `resolve_sid` returned for it
(`("", "")` when resolution failed). -/
structure SFServer where
  lbl : String
  stream : String
  play : String
deriving DecidableEq, Repr

structure SFItem where
  hasTitle : Bool
  hasAnchor : Bool
  href : String
  titleText : String
  preview : String
  detailOk : Bool
  infoText : String
  cats : List String
  servers : List SFServer
  fbIframe : Option SFServer
deriving DecidableEq, Repr

structure SFState where
  results : List Rec
  seen : List String
  log : List (String × LogEntry)
deriving DecidableEq, Repr

def sfBase : String := "https://soccerfull.net"

/-- The link-building loop over `a.video-server` anchors (lines 484-495)
plus the single-iframe fallback (lines 497-506). -/
def sfRawLinks (it : SFItem) : List Link :=
  let links := it.servers.foldl
    (fun acc s =>
      let lbl := if clean s.lbl ≠ "" then clean s.lbl else "Replay"
      if s.stream = "" then acc
      else
        match mk_link lbl s.stream sfBase with
        | none => acc
        | some lk =>
          let lk :=
            if s.play ≠ "" ∧ s.play ≠ s.stream then { lk with player_url := some s.play }
            else lk
          acc ++ [lk])
    []
  if links.isEmpty then
    match it.fbIframe with
    | none => []
    | some f =>
      let fb := if f.stream ≠ "" then f.stream else f.play
      match mk_link "Replay" fb sfBase with
      | none => []
      | some lk =>
        if f.play ≠ "" ∧ f.play ≠ fb then [{ lk with player_url := some f.play }] else [lk]
  else links

/-- `links = uniq_links(links)` (line 508). -/
def sfResolvedLinks (it : SFItem) : List Link := uniq_links (sfRawLinks it)

/-- The loop body of `SoccerFull.run` for one listing item (lines 452-514).
`scraped` is the run's `scraped_at` stamp, `nowStr` the instant
`update_log` records. -/
def sfStep (scraped nowStr : String) (st : SFState) (it : SFItem) : SFState :=
  if ¬ (it.hasTitle ∧ it.hasAnchor) then st
  else
    let url := nurl it.href sfBase
    if url = "" ∨ st.seen.contains url then st
    else
      let st := { st with seen := st.seen ++ [url] }
      if ¬ it.detailOk then st
      else
        let title := clean it.titleText
        let pubPair :=
          match kickSearch true it.infoText.data with
          | some (g1, g2) =>
            (g2 ++ " " ++ g1 ++ " UTC",
             match parse_abs ((⟨stripOrdinals g2.data⟩ : String) ++ " " ++ g1) with
             | some d => isoStr { d with tz := some 0 }
             | none => "")
          | none => ("", "")
        let links := sfResolvedLinks it
        if links.isEmpty then st
        else
          let m := build_match 1 "soccerfull.net" sfBase url title it.preview it.cats
            links scraped pubPair.1 pubPair.2 "" ""
            [("description_text", MVal.vs it.infoText)]
          { st with
            results := st.results ++ [m],
            log := dset st.log m.match_id
              ⟨m.title, 1, "soccerfull.net", m.links.length, nowStr⟩ }

/-- The full `SoccerFull.run` loop with its `MAX_POSTS_PER_SOURCE` break. -/
def sfRun (maxPosts : Nat) (scraped nowStr : String)
    (log0 : List (String × LogEntry)) (items : List SFItem) : SFState :=
  go items ⟨[], [], log0⟩ where
  go : List SFItem → SFState → SFState
    | [], st => st
    | it :: rest, st =>
      if maxPosts ≤ st.results.length then st
      else go rest (sfStep scraped nowStr st it)

/-- `fresh = [m for m in fresh if m.get("links")]` (scraper.py line 846):
the record filter `main` applies before `merge`. -/
def mainLinkFilter (fresh : List Rec) : List Rec :=
  fresh.filter fun m => ¬ m.links.isEmpty

/-! ### Helper definitions for the verification -/

/-- Hexadecimal digit test (lowercase, as `hexdigest` emits). -/
def hexChar (c : Char) : Bool := c.isDigit || ('a' ≤ c && c ≤ 'f')

/-- The unguarded insertion loop of `merge`, shared by both folds. -/
def insAll (acc : List (String × Rec)) (L : List Rec) : List (String × Rec) :=
  L.foldl (fun mp m => dset mp m.match_id (ensure_source_fields m)) acc

def dkeys {α : Type} (l : List (String × α)) : List String := l.map Prod.fst

/-- The case-insensitive dedup keys of a record's link urls (the keys
`uniq_links` dedupes by). -/
def linkKeys (r : Rec) : List String :=
  r.links.map fun l => asciiLower (clean l.url)

/-! Concrete fixtures used by witnesses and counterexamples. -/

def wLink1 : Link := ⟨"Replay", "https://ok.ru/1", "ok.ru", "replay", none⟩

def wLink2 : Link := ⟨"Replay", "https://ok.ru/2", "ok.ru", "replay", none⟩

/-- A fully normalized, valid stored record (a fixpoint of
`ensure_source_fields`). -/
def wRecA : Rec :=
  { match_id := "a", source_id := some 1, source_tag := "source_1",
    source_name := "soccerfull.net", source_url := "https://soccerfull.net",
    url := "https://soccerfull.net/a", title := "A", date := "",
    competition := "", preview_image := "", duration := "", links := [wLink1],
    categories := [], published_raw := "", published_at := "", updated_at := "",
    scraped_at := "",
    metadata := some [("source_id", .vn 1), ("source_tag", .vs "source_1"),
      ("source_name", .vs "soccerfull.net"),
      ("source_url", .vs "https://soccerfull.net")] }

def wRecB : Rec := { wRecA with match_id := "b", url := "https://soccerfull.net/b" }

/-- `wRecB` freshly re-scraped with different links. -/
def wRecB' : Rec := { wRecB with links := [wLink2] }

/-- A corrupt legacy record: no source designation and an empty URL. -/
def wRecBad : Rec :=
  { wRecA with
    match_id := "x", source_id := none, url := "", source_tag := "",
    source_name := "", source_url := "", metadata := none }

/-- A valid stored record whose links duplicate a url up to case. -/
def wRecDup : Rec :=
  { wRecA with
    match_id := "d", url := "https://soccerfull.net/d",
    links := [⟨"a", "http://X/v", "x", "replay", none⟩,
              ⟨"b", "http://x/v", "x", "replay", none⟩] }

/-- A second record carrying id `"a"` with different links, for the
duplicate-id fixture. -/
def wRecA2 : Rec := { wRecA with links := [wLink2] }

/-- A listing item whose detail page resolves to one stream. -/
def wItemOk : SFItem :=
  { hasTitle := true, hasAnchor := true, href := "https://soccerfull.net/match-1",
    titleText := "A vs B", preview := "", detailOk := true, infoText := "",
    cats := [], servers := [⟨"SV 1", "https://soccerfull.net/hls/5.m3u8", ""⟩],
    fbIframe := none }

/-- The same item with every link resolution failing. -/
def wItemEmpty : SFItem := { wItemOk with servers := [⟨"SV 1", "", ""⟩] }

/-- A state whose activity log already contains `wItemOk`'s match id. -/
def wStLogged : SFState :=
  ⟨[], [], [(gen_id "https://soccerfull.net/match-1",
    ⟨"A vs B", 1, "soccerfull.net", 1, "2024-01-01T00:00:00+00:00"⟩)]⟩

/-- The raw (still JSON-escaped) value of the spec's inline fragment. -/
def svuRaw : String := "<iframe src=\\\"https://video.example/x\\\">"

/-- The spec's inline script fragment, exactly as written. -/
def svuFragment : String :=
  "\"single_video_url\":\"" ++ svuRaw ++ "\""

/-- A document containing `svuFragment` preceded by another
`single_video_url` key. -/
def svuDoubleDoc : String :=
  "\"single_video_url\":\"bad\" " ++ svuFragment

/-- A document whose first `single_video_url` occurrence is the fragment. -/
def svuGoodDoc : String := "<script>var cfg = " ++ svuFragment ++ ";</script>"

/-! ## Supporting lemmas -/

theorem esf_links (m : Rec) : (ensure_source_fields m).links = m.links := by
  unfold ensure_source_fields
  split <;> rfl

theorem esf_match_id (m : Rec) : (ensure_source_fields m).match_id = m.match_id := by
  unfold ensure_source_fields
  split <;> rfl

theorem hexDigitChar_hex (n : Nat) : hexChar (hexDigitChar n) = true := by
  unfold hexDigitChar
  split <;> rfl

theorem flatMap_byteHex_all (bs : List Nat) :
    (bs.flatMap byteHex).all hexChar = true := by
  induction bs with
  | nil => rfl
  | cons b t ih => simp [byteHex, hexDigitChar_hex, ih]

theorem gen_id_length (u : String) : (gen_id u).length = 32 := by
  show ((md5Bytes (utf8 (pyStrip u))).flatMap byteHex).length = 32
  simp [md5Bytes, wordLE, byteHex]

theorem stripL_cons_space (l : List Char) : stripL (' ' :: l) = stripL l := by
  simp [stripL, List.dropWhile, pyIsSpace]

theorem stripL_append_ws (l : List Char) (c : Char) (hc : pyIsSpace c = true) :
    stripL (l ++ [c]) = stripL l := by
  unfold stripL
  rw [List.dropWhile_append]
  split
  · rename_i h
    rw [List.isEmpty_iff] at h
    rw [h]
    simp [List.dropWhile, hc]
  · simp [List.reverse_append, List.dropWhile, hc]

theorem strip_pad (u : String) : pyStrip (" " ++ u ++ "\t") = pyStrip u := by
  unfold pyStrip
  have h : (" " ++ u ++ "\t").data = ' ' :: (u.data ++ ['\t']) := by
    simp [String.data_append]
  rw [h, stripL_cons_space, stripL_append_ws u.data '\t' rfl]

theorem gen_id_strip_pad (u : String) : gen_id (" " ++ u ++ "\t") = gen_id u := by
  unfold gen_id
  rw [strip_pad]

theorem dget_dset {α : Type} (l : List (String × α)) (k k' : String) (v : α) :
    dget (dset l k v) k' = if k = k' then some v else dget l k' := by
  induction l with
  | nil => simp [dset, dget]
  | cons hd t ih =>
    obtain ⟨k₀, v₀⟩ := hd
    by_cases h1 : k₀ = k
    · subst h1
      by_cases h2 : k₀ = k' <;> simp [dset, dget, h2]
    · by_cases h2 : k₀ = k'
      · subst h2
        have h3 : ¬ k = k₀ := fun e => h1 e.symm
        simp [dset, dget, h1, h3]
      · simp [dset, dget, h1, h2, ih]

theorem mem_dset {α : Type} {l : List (String × α)} {k : String} {v : α}
    {x : String × α} (h : x ∈ dset l k v) : x ∈ l ∨ x = (k, v) := by
  induction l with
  | nil =>
    simp [dset] at h
    exact Or.inr h
  | cons hd t ih =>
    obtain ⟨k₀, v₀⟩ := hd
    by_cases h1 : k₀ = k
    · subst h1
      simp [dset] at h
      rcases h with h | h
      · exact Or.inr (by simp [h])
      · exact Or.inl (by simp [h])
    · simp [dset, h1] at h
      rcases h with h | h
      · exact Or.inl (by simp [h])
      · rcases ih h with h2 | h2
        · exact Or.inl (List.mem_cons_of_mem _ h2)
        · exact Or.inr h2

theorem dkeys_dset {α : Type} (l : List (String × α)) (k : String) (v : α) :
    dkeys (dset l k v) = if k ∈ dkeys l then dkeys l else dkeys l ++ [k] := by
  induction l with
  | nil => simp [dset, dkeys]
  | cons hd t ih =>
    obtain ⟨k₀, v₀⟩ := hd
    by_cases h1 : k₀ = k
    · subst h1
      simp [dset, dkeys]
    · have h1' : ¬ k = k₀ := fun e => h1 e.symm
      simp only [dset, h1, if_false, dkeys, List.map_cons] at ih ⊢
      rw [ih]
      by_cases h2 : k ∈ List.map Prod.fst t <;>
        simp [List.mem_cons, h1', h2]

theorem nodup_dkeys_dset {α : Type} {l : List (String × α)} {k : String} {v : α}
    (h : (dkeys l).Nodup) : (dkeys (dset l k v)).Nodup := by
  rw [dkeys_dset]
  split
  · exact h
  · rename_i hk
    simp [List.nodup_append, h, hk]

theorem dget_of_mem {α : Type} {l : List (String × α)} {kv : String × α}
    (hm : kv ∈ l) (h : (dkeys l).Nodup) : dget l kv.1 = some kv.2 := by
  induction l with
  | nil => cases hm
  | cons hd t ih =>
    obtain ⟨k₀, v₀⟩ := hd
    simp only [dkeys, List.map_cons] at h
    have hn := List.nodup_cons.mp h
    rcases List.mem_cons.mp hm with h1 | h1
    · rw [h1]
      simp [dget]
    · have hk : k₀ ≠ kv.1 := by
        intro e
        apply hn.1
        rw [e]
        exact List.mem_map.mpr ⟨kv, h1, rfl⟩
      simp [dget, hk]
      exact ih h1 hn.2

theorem dset_fresh {α : Type} {l : List (String × α)} {k : String} {v : α}
    (h : k ∉ dkeys l) : dset l k v = l ++ [(k, v)] := by
  induction l with
  | nil => rfl
  | cons hd t ih =>
    obtain ⟨k₀, v₀⟩ := hd
    simp only [dkeys, List.map_cons, List.mem_cons, not_or] at h
    have hne : k₀ ≠ k := fun e => h.1 e.symm
    simp only [dset, hne, if_false, List.cons_append]
    rw [ih h.2]

theorem insAll_append_one (acc : List (String × Rec)) (L : List Rec) (x : Rec) :
    insAll acc (L ++ [x]) = dset (insAll acc L) x.match_id (ensure_source_fields x) := by
  simp [insAll, List.foldl_append]

theorem dget_insAll (L : List Rec) (acc : List (String × Rec)) (k : String) :
    dget (insAll acc L) k =
      match L.reverse.find? (fun x => x.match_id = k) with
      | some x => some (ensure_source_fields x)
      | none => dget acc k := by
  induction L using List.reverseRecOn with
  | nil => simp [insAll]
  | append_singleton L x ih =>
    rw [insAll_append_one, dget_dset]
    by_cases hx : x.match_id = k
    · simp [hx]
    · simp [List.find?_cons, hx, ih]

theorem mem_insAll {L : List Rec} {acc : List (String × Rec)} {kv : String × Rec}
    (h : kv ∈ insAll acc L) :
    kv ∈ acc ∨ ∃ r ∈ L, kv = (r.match_id, ensure_source_fields r) := by
  induction L generalizing acc with
  | nil => exact Or.inl h
  | cons x L ih =>
    have h' : kv ∈ insAll (dset acc x.match_id (ensure_source_fields x)) L := h
    rcases ih h' with h1 | h1
    · rcases mem_dset h1 with h2 | h2
      · exact Or.inl h2
      · exact Or.inr ⟨x, List.mem_cons_self x L, h2⟩
    · obtain ⟨r, hr, he⟩ := h1
      exact Or.inr ⟨r, List.mem_cons_of_mem _ hr, he⟩

theorem insAll_keyed {L : List Rec} {acc : List (String × Rec)}
    (h : ∀ kv ∈ acc, (kv : String × Rec).2.match_id = kv.1) :
    ∀ kv ∈ insAll acc L, kv.2.match_id = kv.1 := by
  induction L generalizing acc with
  | nil => exact h
  | cons x L ih =>
    intro kv hkv
    refine ih (fun kv2 hkv2 => ?_) kv hkv
    rcases mem_dset hkv2 with h1 | h1
    · exact h kv2 h1
    · rw [h1]
      simp [esf_match_id]

theorem insAll_keys_nodup {L : List Rec} {acc : List (String × Rec)}
    (h : (dkeys acc).Nodup) : (dkeys (insAll acc L)).Nodup := by
  induction L generalizing acc with
  | nil => exact h
  | cons x L ih => exact ih (nodup_dkeys_dset h)

theorem insAll_fresh {L : List Rec} {acc : List (String × Rec)}
    (hd : ∀ r ∈ L, r.match_id ∉ dkeys acc)
    (hn : (L.map (·.match_id)).Nodup) :
    insAll acc L = acc ++ L.map fun r => (r.match_id, ensure_source_fields r) := by
  induction L generalizing acc with
  | nil => simp [insAll]
  | cons x L ih =>
    have hx : x.match_id ∉ dkeys acc := hd x (List.mem_cons_self x L)
    rw [List.map_cons] at hn
    have hnc := List.nodup_cons.mp hn
    have step : insAll acc (x :: L) =
        insAll (acc ++ [(x.match_id, ensure_source_fields x)]) L := by
      show insAll (dset acc x.match_id (ensure_source_fields x)) L = _
      rw [dset_fresh hx]
    rw [step, ih ?_ hnc.2]
    · simp
    · intro r hr
      simp only [dkeys, List.map_append, List.map_cons, List.map_nil, List.mem_append,
        List.mem_singleton]
      rintro (hc | hc)
      · exact hd r (List.mem_cons_of_mem _ hr) hc
      · apply hnc.1
        rw [← hc]
        exact List.mem_map.mpr ⟨r, hr, rfl⟩

theorem guarded_fold (ex : List Rec) (acc : List (String × Rec)) :
    ex.foldl
      (fun mp x =>
        if x.match_id ≠ "" then dset mp x.match_id (ensure_source_fields x) else mp)
      acc = insAll acc (ex.filter fun x => x.match_id ≠ "") := by
  induction ex generalizing acc with
  | nil => simp [insAll]
  | cons x t ih =>
    by_cases hx : x.match_id = ""
    · have hx' : ¬ x.match_id ≠ "" := by simp [hx]
      simp only [List.foldl_cons, if_neg hx', List.filter_cons]
      rw [if_neg (by simp [hx])]
      exact ih acc
    · have hx' : x.match_id ≠ "" := hx
      simp only [List.foldl_cons, if_pos hx', List.filter_cons]
      rw [if_pos (by simp [hx'])]
      exact ih (dset acc x.match_id (ensure_source_fields x))

theorem mergeMap_eq (ex nw : List Rec) :
    mergeMap ex nw =
      insAll (insAll [] (ex.filter fun x => x.match_id ≠ "")) nw := by
  unfold mergeMap
  rw [guarded_fold]
  rfl

/-! ## Claim theorems -/

/-- C4 (counterexample): two URLs that differ only in the letter-case of
their host get different ids — `gen_id` hashes the byte-exact (stripped)
URL and performs no host case-folding, so the claimed case-insensitivity
fails on this concrete pair. -/
theorem claim_C4_counterexample :
    gen_id "https://VIDEO.EXAMPLE/x" ≠ gen_id "https://video.example/x" := by
  decide

/-- C4 (amended): `gen_id` is a pure function (determinism is inherent in
the embedding); for every URL it returns a 32-character digest made only of
lowercase hexadecimal characters, and surrounding whitespace is stripped
before hashing (padding a URL with whitespace does not change its id).
Host letter-case, however, is significant (see the counterexample). -/
theorem claim_C4_amended (u : String) :
    (gen_id u).length = 32 ∧ (gen_id u).data.all hexChar = true ∧
      gen_id (" " ++ u ++ "\t") = gen_id u :=
  ⟨gen_id_length u,
   by
     show ((md5Bytes (utf8 (pyStrip u))).flatMap byteHex).all hexChar = true
     exact flatMap_byteHex_all _,
   gen_id_strip_pad u⟩

/-- C5: the date normalizer resolves relative phrasings by subtracting
`quantity × unitSeconds` from the reference instant with fixed unit sizes
(`month` = 30 days, `year` = 365 days) and flags the result estimated:
`normalize("2 hours ago", 2024-01-01T10:00Z)` is `(2024-01-01T08:00Z, true)`,
`normalize("yesterday", 2024-01-01T00:00Z)` is `(2023-12-31T00:00Z, true)`,
and the month/year approximations land 90 resp. 365 days back. -/
theorem claim_C5_relative_dates :
    parse_dt "2 hours ago" ⟨2024, 1, 1, 10, 0, 0, some 0⟩ =
      (some ⟨2024, 1, 1, 8, 0, 0, some 0⟩, true) ∧
    parse_dt "yesterday" ⟨2024, 1, 1, 0, 0, 0, some 0⟩ =
      (some ⟨2023, 12, 31, 0, 0, 0, some 0⟩, true) ∧
    parse_dt "3 months ago" ⟨2024, 1, 1, 0, 0, 0, some 0⟩ =
      (some ⟨2023, 10, 3, 0, 0, 0, some 0⟩, true) ∧
    parse_dt "1 year ago" ⟨2024, 1, 1, 0, 0, 0, some 0⟩ =
      (some ⟨2023, 1, 1, 0, 0, 0, some 0⟩, true) :=
  ⟨rfl, rfl, rfl, rfl⟩

/-- C6: for every reference instant, normalizing
`"KICK-OFF at 20:00 (UTC) on 3rd January 2024"` yields the exact UTC
instant 2024-01-03T20:00:00Z with `estimated = false`: the relative pass
finds no cue word, the ordinal suffix is stripped, the KICK-OFF pattern
matches, and the explicit UTC zone is attached. -/
theorem claim_C6_kickoff_absolute (ref : PyDatetime) :
    parse_dt "KICK-OFF at 20:00 (UTC) on 3rd January 2024" ref =
      (some ⟨2024, 1, 3, 20, 0, 0, some 0⟩, false) := rfl

/-- C9 (counterexample): the resolver keys off the first
`single_video_url` match in the document, so a document that contains the
spec's fragment but has an earlier `single_video_url` key returns that
earlier value (`["bad"]`), not the fragment's iframe URL — the claim's
quantification over every document containing the fragment fails. -/
theorem claim_C9_counterexample :
    containsS svuDoubleDoc svuFragment = true ∧
    inline_single_video_urls svuDoubleDoc = ["bad"] ∧
    inline_single_video_urls svuDoubleDoc ≠ ["https://video.example/x"] :=
  ⟨by decide, by decide, by decide⟩

/-- C9 (amended): for every HTML document whose FIRST `single_video_url`
match carries the raw value `<iframe src=\"https://video.example/x\">`, the
resolver returns exactly one URL, `https://video.example/x`: the escaped
string is unescaped and, since it begins with an iframe tag, the iframe's
`src` attribute is taken as the URL. -/
theorem claim_C9_amended (html : String)
    (h : svuSearch html.data = some svuRaw.data) :
    inline_single_video_urls html = ["https://video.example/x"] := by
  unfold inline_single_video_urls
  rw [h]
  rfl

/-- Witness for C9: a concrete document whose first match is the fragment. -/
theorem claim_C9_witness :
    svuSearch svuGoodDoc.data = some svuRaw.data ∧
    inline_single_video_urls svuGoodDoc = ["https://video.example/x"] :=
  ⟨by decide, claim_C9_amended svuGoodDoc (by decide)⟩

/-- C7: a candidate whose detail page yields zero resolvable links is
dropped by the `SoccerFull.run` loop body without emitting a record and
without writing an activity-log entry; and `main`'s pre-merge filter keeps
only records with non-empty links, so no zero-link record reaches `merge`. -/
theorem claim_C7_zero_links :
    (∀ scraped nowStr st it, sfResolvedLinks it = [] →
      (sfStep scraped nowStr st it).results = st.results ∧
      (sfStep scraped nowStr st it).log = st.log) ∧
    (∀ fresh : List Rec, ∀ r ∈ mainLinkFilter fresh, r.links ≠ []) := by
  constructor
  · intro scraped nowStr st it h
    by_cases c1 : it.hasTitle ∧ it.hasAnchor
    · by_cases c2 : nurl it.href sfBase = "" ∨ nurl it.href sfBase ∈ st.seen
      · simp [sfStep, c1, c2]
      · by_cases c3 : it.detailOk
        · simp [sfStep, c1, c2, c3, h]
        · simp [sfStep, c1, c2, c3]
    · simp [sfStep, c1]
  · intro fresh r hr
    rw [mainLinkFilter, List.mem_filter] at hr
    intro he
    rw [he] at hr
    simp at hr

/-- Witness for C7 at a concrete zero-link item and a concrete fresh list. -/
theorem claim_C7_witness :
    sfResolvedLinks wItemEmpty = [] ∧
    ((sfStep "S" "N" wStLogged wItemEmpty).results = wStLogged.results ∧
     (sfStep "S" "N" wStLogged wItemEmpty).log = wStLogged.log) ∧
    wRecA.links ≠ [] :=
  ⟨by decide,
   claim_C7_zero_links.1 "S" "N" wStLogged wItemEmpty (by decide),
   claim_C7_zero_links.2 [wRecA] wRecA (by decide)⟩

/-- C2 (counterexample): the adapter never consults the activity log — a
candidate whose `match_id` is already present in the log is processed
anyway and a record is emitted for it. -/
theorem claim_C2_counterexample :
    (dget wStLogged.log (gen_id (nurl wItemOk.href sfBase))).isSome = true ∧
    (sfStep "S" "N" wStLogged wItemOk).results.length = 1 :=
  ⟨by decide, by decide⟩

/-- C2 (amended): adapters do not read the activity log as a skip filter —
for every state, logged or not, a candidate that passes the markup and
detail checks and resolves at least one link is captured, and immediately
afterwards the log entry for its id is created or updated with the
record's title, source, link count and the current instant. -/
theorem claim_C2_amended (scraped nowStr : String) (st : SFState) (it : SFItem)
    (h1 : it.hasTitle = true) (h2 : it.hasAnchor = true)
    (h3 : nurl it.href sfBase ≠ "")
    (h4 : st.seen.contains (nurl it.href sfBase) = false)
    (h5 : it.detailOk = true)
    (h6 : sfResolvedLinks it ≠ []) :
    ∃ m : Rec,
      (sfStep scraped nowStr st it).results = st.results ++ [m] ∧
      m.match_id = gen_id (nurl it.href sfBase) ∧
      (sfStep scraped nowStr st it).log =
        dset st.log m.match_id ⟨m.title, 1, "soccerfull.net", m.links.length, nowStr⟩ := by
  have h4' : nurl it.href sfBase ∉ st.seen := by
    simp at h4
    exact h4
  unfold sfStep
  rw [if_neg (by simp [h1, h2]), if_neg (by simp [h3, h4']),
    if_neg (by simp [h5]), if_neg (by simp [List.isEmpty_iff, h6])]
  exact ⟨_, rfl, rfl, rfl⟩

/-- Witness for C2 at a concrete already-logged state. -/
theorem claim_C2_witness :
    ∃ m : Rec,
      (sfStep "S" "N" wStLogged wItemOk).results = wStLogged.results ++ [m] ∧
      m.match_id = gen_id (nurl wItemOk.href sfBase) ∧
      (sfStep "S" "N" wStLogged wItemOk).log =
        dset wStLogged.log m.match_id
          ⟨m.title, 1, "soccerfull.net", m.links.length, "N"⟩ :=
  claim_C2_amended "S" "N" wStLogged wItemOk (by decide) (by decide) (by decide)
    (by decide) (by decide) (by decide)

/-- C1: for existing store `[A, B]` of valid, source-field-normalized
records and a fresh list `[B']` with the same id as `B` but different
links, `merge([A, B], [B'])` is exactly `[B', A]`: the fresh record wins
over the stored one, the record touched this run comes first, and each
partition keeps its relative order. -/
theorem claim_C1_merge_ordering (A B B' : Rec)
    (hA : ensure_source_fields A = A) (hB' : ensure_source_fields B' = B')
    (hAid : A.match_id ≠ "") (hBid : B.match_id ≠ "")
    (hAB : A.match_id ≠ B.match_id) (hid : B'.match_id = B.match_id)
    (hlinks : B'.links ≠ B.links)
    (hAv : validSrc A = true) (hB'v : validSrc B' = true) :
    merge [A, B] [B'] = [B', A] := by
  have e1 : ¬ A.match_id = B'.match_id := by
    rw [hid]
    exact hAB
  have e2 : B.match_id = B'.match_id := hid.symm
  have e3 : ¬ B'.match_id = "" := by
    rw [hid]
    exact hBid
  simp [merge, mergeMap, dset, hA, hB', hAid, hBid, hAB, e1, e2, e3, hAv, hB'v]

/-- Witness for C1 at concrete records. -/
theorem claim_C1_witness :
    ensure_source_fields wRecA = wRecA ∧ ensure_source_fields wRecB' = wRecB' ∧
    wRecB'.links ≠ wRecB.links ∧
    merge [wRecA, wRecB] [wRecB'] = [wRecB', wRecA] :=
  ⟨by decide, by decide, by decide,
   claim_C1_merge_ordering wRecA wRecB wRecB' (by decide) (by decide) (by decide)
     (by decide) (by decide) (by decide) (by decide) (by decide) (by decide)⟩

/-- C3 (counterexample): `merge(S, [])` is not `S` as a set for every store
`S` — the defensive filter drops records lacking a valid source designation
or URL, so a store holding such a record loses it. -/
theorem claim_C3_counterexample :
    wRecBad ∈ [wRecBad] ∧ merge [wRecBad] [] = [] :=
  ⟨by decide, by decide⟩

/-- C3 (amended): for every store of valid records (known source, non-empty
URL, non-empty id), already source-field-normalized and with pairwise
distinct ids, `merge(S, [])` returns `S` itself — nothing is dropped,
added, modified, or even reordered; records failing the defensive validity
filter are dropped (see the counterexample). -/
theorem claim_C3_amended (S : List Rec)
    (hval : ∀ r ∈ S,
      ensure_source_fields r = r ∧ validSrc r = true ∧ r.match_id ≠ "")
    (hids : (S.map (·.match_id)).Nodup) :
    merge S [] = S := by
  have hfilter : (S.filter fun x => x.match_id ≠ "") = S :=
    List.filter_eq_self.mpr fun a ha => by simp [(hval a ha).2.2]
  have hmm : mergeMap S [] = S.map fun r => (r.match_id, ensure_source_fields r) := by
    rw [mergeMap_eq, hfilter]
    show insAll [] S = _
    rw [insAll_fresh (by intro r hr; simp [dkeys]) hids]
    simp
  unfold merge
  rw [hmm, List.map_map]
  have hmap : (S.map ((fun kv => ensure_source_fields (kv : String × Rec).2) ∘
      fun r => (r.match_id, ensure_source_fields r))) = S := by
    rw [List.map_congr_left (g := id) fun r hr => ?_, List.map_id]
    show ensure_source_fields (ensure_source_fields r) = r
    rw [(hval r hr).1, (hval r hr).1]
  rw [hmap]
  have hfv : S.filter validSrc = S :=
    List.filter_eq_self.mpr fun a ha => (hval a ha).2.1
  simp [hfv]

/-- Witness for C3 at a concrete valid store. -/
theorem claim_C3_witness :
    merge [wRecA, wRecB] [] = [wRecA, wRecB] :=
  claim_C3_amended [wRecA, wRecB] (by decide) (by decide)

/-- C8 (counterexample): `merge` does not itself enforce link uniqueness —
a stored record whose links duplicate a URL up to case passes through merge
unchanged, so the claim's quantification over any store fails. -/
theorem claim_C8_counterexample :
    wRecDup ∈ merge [wRecDup] [] ∧ ¬ (linkKeys wRecDup).Nodup :=
  ⟨by decide, by decide⟩

/-- Every record in a merge output is `ensure_source_fields` (applied
twice) of some input record. -/
theorem merge_mem_of_inputs {ex nw : List Rec} {x : Rec} (hx : x ∈ merge ex nw) :
    ∃ r₀ ∈ ex ++ nw, x = ensure_source_fields (ensure_source_fields r₀) := by
  unfold merge at hx
  have h1 : x ∈ ((mergeMap ex nw).map fun kv => ensure_source_fields kv.2).filter
      validSrc := by
    rcases List.mem_append.mp hx with h | h
    · exact (List.mem_filter.mp h).1
    · exact (List.mem_filter.mp h).1
  have h2 := (List.mem_filter.mp h1).1
  obtain ⟨kv, hkv, he⟩ := List.mem_map.mp h2
  rw [mergeMap_eq] at hkv
  rcases mem_insAll hkv with h3 | h3
  · rcases mem_insAll h3 with h4 | h4
    · cases h4
    · obtain ⟨r₀, hr₀, hkv'⟩ := h4
      refine ⟨r₀, List.mem_append.mpr (Or.inl ((List.mem_filter.mp hr₀).1)), ?_⟩
      rw [← he, hkv']
  · obtain ⟨r₀, hr₀, hkv'⟩ := h3
    refine ⟨r₀, List.mem_append.mpr (Or.inr hr₀), ?_⟩
    rw [← he, hkv']

/-- C8 (amended): whenever every input record (stored and fresh) has
case-insensitively unique link urls — as every record built by
`build_match`/`uniq_links` does — every record in the merge output does
too: merge never introduces duplicate links. Corrupt stored records are
passed through unchanged (see the counterexample). -/
theorem claim_C8_amended (ex nw : List Rec)
    (h : ∀ r ∈ ex ++ nw, (linkKeys r).Nodup) :
    ∀ r ∈ merge ex nw, (linkKeys r).Nodup := by
  intro r hr
  obtain ⟨r₀, hr₀, he⟩ := merge_mem_of_inputs hr
  have hk : linkKeys r = linkKeys r₀ := by
    rw [he]
    unfold linkKeys
    rw [esf_links, esf_links]
  rw [hk]
  exact h r₀ hr₀

/-- Witness for C8 at concrete inputs. -/
theorem claim_C8_witness :
    (∀ r ∈ [wRecA] ++ [wRecB'], (linkKeys r).Nodup) ∧
    (∀ r ∈ merge [wRecA] [wRecB'], (linkKeys r).Nodup) :=
  ⟨by decide, claim_C8_amended [wRecA] [wRecB'] (by decide)⟩

/-- C10: merge outputs have pairwise-distinct `match_id`s, and each output
record is the (normalized) last occurrence of its id in the inputs
(existing-store order first, then fresh order — so duplicates collapse and
the last occurrence wins). -/
theorem claim_C10_unique_ids (ex nw : List Rec) :
    ((merge ex nw).map (·.match_id)).Nodup ∧
    ∀ r ∈ merge ex nw,
      ∃ r₀,
        (((ex.filter fun x => x.match_id ≠ "") ++ nw).reverse.find?
          (fun x => x.match_id = r.match_id)) = some r₀ ∧
        r = ensure_source_fields (ensure_source_fields r₀) := by
  have hkeys : (dkeys (mergeMap ex nw)).Nodup := by
    rw [mergeMap_eq]
    exact insAll_keys_nodup (insAll_keys_nodup (by simp [dkeys]))
  have hkeyed : ∀ kv ∈ mergeMap ex nw, (kv : String × Rec).2.match_id = kv.1 := by
    rw [mergeMap_eq]
    exact insAll_keyed (insAll_keyed (by intro kv hk; cases hk))
  constructor
  · have hids0 : (((mergeMap ex nw).map fun kv => ensure_source_fields kv.2).map
        (·.match_id)).Nodup := by
      rw [List.map_map]
      have : ((mergeMap ex nw).map
          ((fun r : Rec => r.match_id) ∘ fun kv => ensure_source_fields kv.2)) =
          dkeys (mergeMap ex nw) := by
        apply List.map_congr_left
        intro kv hkv
        show (ensure_source_fields kv.2).match_id = kv.1
        rw [esf_match_id]
        exact hkeyed kv hkv
      rw [this]
      exact hkeys
    have hids1 : ((((mergeMap ex nw).map fun kv => ensure_source_fields kv.2).filter
        validSrc).map (·.match_id)).Nodup :=
      List.Nodup.sublist (List.Sublist.map _ (List.filter_sublist _)) hids0
    unfold merge
    have hp := List.filter_append_perm
      (fun m : Rec => (nw.map (·.match_id)).contains m.match_id)
      (((mergeMap ex nw).map fun kv => ensure_source_fields kv.2).filter validSrc)
    exact ((hp.map (·.match_id)).nodup_iff).mpr hids1
  · intro r hr
    unfold merge at hr
    have h1 : r ∈ ((mergeMap ex nw).map fun kv => ensure_source_fields kv.2).filter
        validSrc := by
      rcases List.mem_append.mp hr with h | h
      · exact (List.mem_filter.mp h).1
      · exact (List.mem_filter.mp h).1
    have h2 := (List.mem_filter.mp h1).1
    obtain ⟨kv, hkv, he⟩ := List.mem_map.mp h2
    have hk := hkeyed kv hkv
    have hlookup : dget (mergeMap ex nw) kv.1 = some kv.2 := dget_of_mem hkv hkeys
    have hchar : dget (mergeMap ex nw) kv.1 =
        match (((ex.filter fun x => x.match_id ≠ "") ++ nw).reverse.find?
            (fun x => x.match_id = kv.1)) with
        | some x => some (ensure_source_fields x)
        | none => none := by
      rw [mergeMap_eq, dget_insAll, List.reverse_append, List.find?_append]
      cases hnw : nw.reverse.find? (fun x => x.match_id = kv.1) with
      | some x => simp [hnw]
      | none =>
        rw [dget_insAll]
        cases hex : (ex.filter fun x => x.match_id ≠ "").reverse.find?
            (fun x => x.match_id = kv.1) with
        | some x => simp [hnw, hex]
        | none => simp [hnw, hex, dget]
    rw [hlookup] at hchar
    cases hfind : (((ex.filter fun x => x.match_id ≠ "") ++ nw).reverse.find?
        (fun x => x.match_id = kv.1)) with
    | none =>
      rw [hfind] at hchar
      cases hchar
    | some x =>
      rw [hfind] at hchar
      have hx : ensure_source_fields x = kv.2 := by
        injection hchar with hinj
        exact hinj.symm
      have hrid : r.match_id = kv.1 := by
        rw [← he, esf_match_id, hk]
      refine ⟨x, ?_, ?_⟩
      · rw [hrid]
        exact hfind
      · rw [← he, hx]

/-- Witness for C10 at a store with a duplicated id. -/
theorem claim_C10_witness :
    ((merge [wRecA2, wRecA] [wRecB]).map (·.match_id)).Nodup ∧
    (∃ r₀,
      ((([wRecA2, wRecA].filter fun x => x.match_id ≠ "") ++ [wRecB]).reverse.find?
        (fun x => x.match_id = wRecA.match_id)) = some r₀ ∧
      wRecA = ensure_source_fields (ensure_source_fields r₀)) :=
  ⟨(claim_C10_unique_ids [wRecA2, wRecA] [wRecB]).1,
   (claim_C10_unique_ids [wRecA2, wRecA] [wRecB]).2 wRecA (by decide)⟩

end Scraper
